import Mathlib

/-!
Shallow embedding of `src/dashboard.py` (IBGE municipalities dashboard).

The script loads two tables (states, municipalities) either from the IBGE
REST API or, when anything in the primary path raises, from two CSV files
(`carregar_dados`), and then computes aggregate tables with pandas
(`mun_por_regiao`, `regiao_mais_municipios`, `total_estados`,
`mun_por_estado`).

Modelling conventions for the pandas fragment actually used by the script:
* a dataframe is a column-name list plus positional rows of cells; a cell
  is an integer, a string, or null (NaN/None);
* `groupby(c).size()` drops rows whose key cell is null (pandas
  `dropna=True` default) and returns one row per distinct key, keys sorted
  ascending (`sort=True` default);
* `Series.nunique()` counts distinct non-null values;
* `Series.idxmax()` returns the first position attaining the maximum;
* `sort_values(c, ascending=False)` is modelled as a stable descending
  sort: pandas `nargsort` reverses the array, argsorts, and reverses the
  result, so with a stable underlying sort equal keys keep their original
  relative order (the default `quicksort` kind leaves tie order formally
  unspecified; the stable reading is the deterministic semantics of the
  construction);
* `merge(..., on=k, how="left", suffixes=("", "_est"))` keeps every left
  row, duplicates it per matching right row, null-fills right columns when
  no right row matches, and appends `_est` to a right column name exactly
  when the left table also has that column;
* `rename(columns=d)` renames the listed columns and ignores absent keys.

In the grouped columns of this script (`regiao`, `uf`) the cells are
strings or null, and the script's key columns are never of mixed
int/string type, so the cross-constructor cases of the `Val` order below
are never exercised.
-/

/-- A dataframe cell: integer, string, or null (models NaN/None). -/
inductive Val : Type
  | int (n : Int)
  | str (s : String)
  | null
deriving DecidableEq, Repr

/-- Lexicographic comparison of char lists by code point (kernel-reducible,
unlike `String.lt`). -/
def chListLe : List Char → List Char → Bool
  | [], _ => true
  | _ :: _, [] => false
  | c :: cs, d :: ds => decide (c < d) || (decide (c = d) && chListLe cs ds)

/-- String order used for sorting group keys (code-point lexicographic). -/
def strLe (s t : String) : Bool := chListLe s.data t.data

/-- Total order on cells: null first, then integers, then strings.  Only the
within-constructor cases are reachable in the script (a grouped column is
homogeneous). -/
def Val.le : Val → Val → Bool
  | .null, _ => true
  | .int _, .null => false
  | .int n, .int m => decide (n ≤ m)
  | .int _, .str _ => true
  | .str _, .null => false
  | .str _, .int _ => false
  | .str s, .str t => strLe s t

/-- A pandas dataframe: column names plus positional rows. -/
structure DF : Type where
  cols : List String
  rows : List (List Val)
deriving DecidableEq, Repr

/-- Cell of row `r` in column `c` (`df[c]` on one row): position of the
column name, then the cell at that position. -/
def getVal (cols : List String) (r : List Val) (c : String) : Val :=
  match cols.findIdx? (fun c0 => c0 == c) with
  | some i => r.getD i Val.null
  | none => Val.null

/-- Append one row to a dataframe. -/
def appendRow (df : DF) (r : List Val) : DF := ⟨df.cols, df.rows ++ [r]⟩

/-- The cells of column `c`, one per row, in row order. -/
def colVals (df : DF) (c : String) : List Val :=
  df.rows.map (fun r => getVal df.cols r c)

/-- Insert `a` before the first element `b` with `le a b` (stable). -/
def insertBy (le : α → α → Bool) (a : α) : List α → List α
  | [] => [a]
  | b :: l => if le a b then a :: b :: l else b :: insertBy le a l

/-- Stable insertion sort by `le`. -/
def sortBy (le : α → α → Bool) (l : List α) : List α :=
  l.foldr (insertBy le) []

/-- `df.groupby(c).size()`: null keys dropped, keys sorted ascending, one
count per distinct key. -/
def groupbySize (df : DF) (c : String) : List (Val × Nat) :=
  let vs := (colVals df c).filter (fun v => decide (v ≠ Val.null))
  (sortBy Val.le vs.dedup).map (fun k => (k, vs.count k))

/-- `len(df_municipios)` (line 91). -/
def total_municipios (df : DF) : Nat := df.rows.length

/-- `df_municipios["uf"].nunique()` (line 92): distinct non-null values. -/
def total_estados (df : DF) : Nat :=
  ((colVals df "uf").filter (fun v => decide (v ≠ Val.null))).dedup.length

/-- `df_municipios.groupby("regiao").size().reset_index(name="qtd")`
(line 94). -/
def mun_por_regiao (df : DF) : List (Val × Nat) := groupbySize df "regiao"

/-- First element attaining the maximal count (`Series.idxmax`). -/
def firstMax : List (Val × Nat) → Option (Val × Nat)
  | [] => none
  | p :: l =>
      match firstMax l with
      | none => some p
      | some q => if p.2 < q.2 then some q else some p

/-- `mun_por_regiao.loc[mun_por_regiao["qtd"].idxmax(), "regiao"]`
(line 95); `none` models the `ValueError` that `idxmax` raises on an empty
series. -/
def regiao_mais_municipios (df : DF) : Option Val :=
  Option.map Prod.fst (firstMax (mun_por_regiao df))

/-- Descending-by-count comparison used for
`sort_values("Quantidade", ascending=False)`. -/
def countGe (a b : Val × Nat) : Bool := decide (b.2 ≤ a.2)

/-- Lines 146-154: group municipalities by `uf`, count, sort descending by
count (stable), keep the top 10, and index rows 1.. (the displayed rank).
An entry is `(rank, uf, count)`. -/
def mun_por_estado (df : DF) : List (Nat × Val × Nat) :=
  ((sortBy countGe (groupbySize df "uf")).take 10).enum.map
    (fun p => (p.1 + 1, p.2))

/-- A JSON value as consumed by the script (the consumed leaves are
integers and strings; arrays do not occur below the per-record level). -/
inductive Json : Type
  | int (n : Int)
  | str (s : String)
  | obj (fields : List (String × Json))

/-- `j[k]` in Python: field lookup that raises (modelled as `Except.error`)
when `j` is not an object or lacks the key. -/
def Json.get : Json → String → Except Unit Json
  | .obj fs, k =>
      match fs.find? (fun p => p.1 == k) with
      | some p => .ok p.2
      | none => .error ()
  | _, _ => .error ()

/-- `j` followed by the accesses in `path`, left to right. -/
def Json.getPath (j : Json) (path : List String) : Except Unit Json :=
  path.foldlM Json.get j

/-- Scalar JSON leaf as a dataframe cell (the consumed leaves in this API
are always scalars). -/
def Json.toVal : Json → Val
  | .int n => .int n
  | .str s => .str s
  | .obj _ => .null

/-- One row of `df_estados` on the API path (lines 31-39); any missing key
raises. -/
def parseEstado (e : Json) : Except Unit (List Val) := do
  let id0 ← e.get "id"
  let sigla ← e.get "sigla"
  let nome ← e.get "nome"
  let regiaoNome ← e.getPath ["regiao", "nome"]
  pure [id0.toVal, sigla.toVal, nome.toVal, regiaoNome.toVal]

/-- One row of `df_municipios` on the API path (lines 47-57); any missing
key along the nested path raises. -/
def parseMunicipio (m : Json) : Except Unit (List Val) := do
  let id0 ← m.get "id"
  let nome ← m.get "nome"
  let codigoUf ← m.getPath ["microrregiao", "mesorregiao", "UF", "id"]
  let sigla ← m.getPath ["microrregiao", "mesorregiao", "UF", "sigla"]
  let estado ← m.getPath ["microrregiao", "mesorregiao", "UF", "nome"]
  let regiaoNome ← m.getPath ["microrregiao", "mesorregiao", "UF", "regiao", "nome"]
  pure [id0.toVal, nome.toVal, codigoUf.toVal, sigla.toVal, estado.toVal, regiaoNome.toVal]

/-- A Python list comprehension over fallible element code: left to right,
the first exception aborts the whole comprehension. -/
def traverseE (f : α → Except Unit β) : List α → Except Unit (List β)
  | [] => .ok []
  | x :: xs =>
      match f x with
      | .error e => .error e
      | .ok y =>
          match traverseE f xs with
          | .error e => .error e
          | .ok ys => .ok (y :: ys)

/-- Outcomes of the effectful steps of one `carregar_dados` call: for each
API endpoint, `none` means the GET / `raise_for_status` / `.json()` step
raised (transport error, timeout, non-2xx status, or JSON decode failure)
and `some js` means it returned the decoded record list; the two CSV
reads are the parsed CSV tables (a failure there is fatal and out of
scope of the claims). -/
structure Env : Type where
  apiEstados : Option (List Json)
  apiMunicipios : Option (List Json)
  csvEstados : DF
  csvMunicipios : DF

/-- New name of column `c` under the rename mapping `d` (identity when `c`
is not a key of `d`). -/
def renameFn (d : List (String × String)) (c : String) : String :=
  ((d.find? (fun p => p.1 == c)).map Prod.snd).getD c

/-- `df.rename(columns=d)`: rename listed columns, ignore absent keys. -/
def renameCols (d : List (String × String)) (df : DF) : DF :=
  ⟨df.cols.map (renameFn d), df.rows⟩

/-- `df[[c1, ..., ck]]`: column projection in the given order. -/
def selectCols (df : DF) (cs : List String) : DF :=
  ⟨cs, df.rows.map (fun r => cs.map (fun c => getVal df.cols r c))⟩

/-- `left.merge(right, on=key, how="left", suffixes=("", "_est"))`: every
left row is kept, duplicated per matching right row; with no match the
right columns are null-filled; a non-key right column already present on
the left gets the `_est` suffix. -/
def mergeLeftOn (l r : DF) (key : String) : DF :=
  let rOther := r.cols.filter (fun c => !(c == key))
  ⟨l.cols ++ rOther.map (fun c => if l.cols.contains c then c ++ "_est" else c),
   l.rows.flatMap (fun lr =>
     let k := getVal l.cols lr key
     match r.rows.filter (fun rr => getVal r.cols rr key == k) with
     | [] => [lr ++ rOther.map (fun _ => Val.null)]
     | ms => ms.map (fun rr => lr ++ rOther.map (fun c => getVal r.cols rr c)))⟩

/-- The CSV-path normalization (lines 70-79): rename columns to the
canonical names, then left-join the state fields onto the municipalities
on `codigo_uf`. -/
def csvNormalize (est mun : DF) : DF × DF :=
  let df_estados := renameCols [("nome", "estado"), ("codigo_uf", "codigo_uf")] est
  let df_municipios := renameCols [("nome", "municipio")] mun
  (df_estados,
   mergeLeftOn df_municipios
     (selectCols df_estados ["codigo_uf", "uf", "estado", "regiao"]) "codigo_uf")

/-- The whole `except` branch (lines 61-81): read the two CSVs, normalize,
and label the result. -/
def csvFallback (env : Env) : DF × DF × String :=
  let p := csvNormalize env.csvEstados env.csvMunicipios
  (p.1, p.2, "CSV GitHub (fallback)")

/-- Column names of `df_estados` on the API path. -/
def estadoApiCols : List String := ["codigo_uf", "uf", "estado", "regiao"]

/-- Column names of `df_municipios` on the API path. -/
def municipioApiCols : List String :=
  ["codigo_ibge", "municipio", "codigo_uf", "uf", "estado", "regiao"]

/-- The body of the `try` block (lines 24-59): fetch and parse states, then
fetch and parse municipalities; any raised step aborts the whole block. -/
def primaryLoad (env : Env) : Except Unit (DF × DF × String) :=
  match env.apiEstados with
  | none => .error ()
  | some ej =>
      match traverseE parseEstado ej with
      | .error e => .error e
      | .ok erows =>
          match env.apiMunicipios with
          | none => .error ()
          | some mj =>
              match traverseE parseMunicipio mj with
              | .error e => .error e
              | .ok mrows =>
                  .ok (⟨estadoApiCols, erows⟩, ⟨municipioApiCols, mrows⟩, "API IBGE")

/-- `carregar_dados` (lines 19-81): the primary API path, with the CSV
fallback on any exception. -/
def carregar_dados (env : Env) : DF × DF × String :=
  match primaryLoad env with
  | .ok r => r
  | .error _ => csvFallback env

/-- The disjunction of the concrete events that make the `try` block raise:
a failed fetch/decode of either endpoint, or a record in either response
on which the row construction raises. -/
def primaryFails (env : Env) : Prop :=
  env.apiEstados = none ∨
  (∃ js, env.apiEstados = some js ∧ ∃ j ∈ js, parseEstado j = .error ()) ∨
  env.apiMunicipios = none ∨
  (∃ js, env.apiMunicipios = some js ∧ ∃ j ∈ js, parseMunicipio j = .error ())

/-! ## Order and sorting lemmas -/

theorem chListLe_total : ∀ s t : List Char, chListLe s t = true ∨ chListLe t s = true := by
  intro s
  induction s with
  | nil => intro t; left; cases t <;> rfl
  | cons c cs ih =>
    intro t
    cases t with
    | nil => right; rfl
    | cons d ds =>
      rcases lt_trichotomy c d with h | h | h
      · left; simp [chListLe, h]
      · subst h
        rcases ih ds with h2 | h2
        · left; simp [chListLe, h2]
        · right; simp [chListLe, h2]
      · right; simp [chListLe, h]

theorem chListLe_trans :
    ∀ s t u : List Char, chListLe s t = true → chListLe t u = true →
      chListLe s u = true := by
  intro s
  induction s with
  | nil => intro t u _ _; cases u <;> simp [chListLe]
  | cons c cs ih =>
    intro t u hst htu
    cases t with
    | nil => simp [chListLe] at hst
    | cons d ds =>
      cases u with
      | nil => simp [chListLe] at htu
      | cons e es =>
        simp only [chListLe, Bool.or_eq_true, Bool.and_eq_true,
          decide_eq_true_eq] at hst htu ⊢
        rcases hst with h1 | ⟨h1, h1r⟩ <;> rcases htu with h2 | ⟨h2, h2r⟩
        · exact Or.inl (lt_trans h1 h2)
        · exact Or.inl (h2 ▸ h1)
        · exact Or.inl (h1 ▸ h2)
        · exact Or.inr ⟨h1.trans h2, ih ds es h1r h2r⟩

theorem chListLe_antisymm :
    ∀ s t : List Char, chListLe s t = true → chListLe t s = true → s = t := by
  intro s
  induction s with
  | nil => intro t _ hts; cases t with
    | nil => rfl
    | cons d ds => simp [chListLe] at hts
  | cons c cs ih =>
    intro t hst hts
    cases t with
    | nil => simp [chListLe] at hst
    | cons d ds =>
      simp only [chListLe, Bool.or_eq_true, Bool.and_eq_true,
        decide_eq_true_eq] at hst hts
      rcases hst with h1 | ⟨h1, h1r⟩ <;> rcases hts with h2 | ⟨h2, h2r⟩
      · exact absurd h2 (lt_asymm h1)
      · exact absurd (h2 ▸ h1) (lt_irrefl d)
      · exact absurd (h1 ▸ h2) (lt_irrefl d)
      · subst h1; rw [ih ds h1r h2r]

theorem strLe_total (s t : String) : strLe s t = true ∨ strLe t s = true :=
  chListLe_total s.data t.data

theorem strLe_trans {s t u : String} (h1 : strLe s t = true) (h2 : strLe t u = true) :
    strLe s u = true :=
  chListLe_trans s.data t.data u.data h1 h2

theorem strLe_antisymm {s t : String} (h1 : strLe s t = true) (h2 : strLe t s = true) :
    s = t :=
  String.ext (chListLe_antisymm s.data t.data h1 h2)

theorem val_le_total (a b : Val) : Val.le a b = true ∨ Val.le b a = true := by
  cases a <;> cases b <;> simp [Val.le] <;> first
    | omega
    | exact strLe_total _ _

theorem val_le_trans {a b c : Val} (h1 : Val.le a b = true) (h2 : Val.le b c = true) :
    Val.le a c = true := by
  cases a <;> cases b <;> cases c <;> simp [Val.le] at * <;> first
    | omega
    | exact strLe_trans h1 h2

theorem val_le_antisymm {a b : Val} (h1 : Val.le a b = true) (h2 : Val.le b a = true) :
    a = b := by
  cases a <;> cases b <;> simp [Val.le] at * <;> first
    | omega
    | exact strLe_antisymm h1 h2

theorem insertBy_perm (le : α → α → Bool) (a : α) :
    ∀ l : List α, (insertBy le a l).Perm (a :: l) := by
  intro l
  induction l with
  | nil => simp [insertBy]
  | cons b l ih =>
    by_cases h : le a b = true
    · simp [insertBy, h]
    · simp only [insertBy, h, if_neg, Bool.not_eq_true, if_false]
      exact (ih.cons b).trans (List.Perm.swap a b l)

theorem sortBy_perm (le : α → α → Bool) :
    ∀ l : List α, (sortBy le l).Perm l := by
  intro l
  induction l with
  | nil => exact List.Perm.refl _
  | cons a l ih =>
    exact (insertBy_perm le a (sortBy le l)).trans (ih.cons a)

theorem pairwise_insertBy (le : α → α → Bool)
    (htrans : ∀ a b c, le a b = true → le b c = true → le a c = true)
    (htot : ∀ a b, le a b = true ∨ le b a = true)
    (a : α) :
    ∀ l : List α, l.Pairwise (le · · = true) →
      (insertBy le a l).Pairwise (le · · = true) := by
  intro l
  induction l with
  | nil => intro _; simp [insertBy]
  | cons b l ih =>
    intro hl
    rw [List.pairwise_cons] at hl
    by_cases h : le a b = true
    · simp only [insertBy, h, if_true]
      rw [List.pairwise_cons]
      refine ⟨?_, List.pairwise_cons.mpr hl⟩
      intro x hx
      rcases List.mem_cons.mp hx with rfl | hx
      · exact h
      · exact htrans a b x h (hl.1 x hx)
    · rw [Bool.not_eq_true] at h
      simp only [insertBy, h, Bool.false_eq_true, if_false]
      rw [List.pairwise_cons]
      refine ⟨?_, ih hl.2⟩
      intro x hx
      rcases List.mem_cons.mp ((insertBy_perm le a l).mem_iff.mp hx) with h_eq | hx
      · rw [h_eq]
        rcases htot a b with h2 | h2
        · rw [h] at h2; exact absurd h2 (by simp)
        · exact h2
      · exact hl.1 x hx

theorem sortBy_pairwise (le : α → α → Bool)
    (htrans : ∀ a b c, le a b = true → le b c = true → le a c = true)
    (htot : ∀ a b, le a b = true ∨ le b a = true) :
    ∀ l : List α, (sortBy le l).Pairwise (le · · = true) := by
  intro l
  induction l with
  | nil => simp [sortBy]
  | cons a l ih => exact pairwise_insertBy le htrans htot a (sortBy le l) ih

/-! ## Aggregation lemmas -/

theorem groupbySize_sum (df : DF) (c : String) :
    ((groupbySize df c).map Prod.snd).sum =
      ((colVals df c).filter (fun v => decide (v ≠ Val.null))).length := by
  unfold groupbySize
  set vs := (colVals df c).filter (fun v => decide (v ≠ Val.null)) with hvs
  rw [List.map_map]
  have hperm : (sortBy Val.le vs.dedup).Perm vs.dedup := sortBy_perm _ _
  have := (hperm.map (fun k => (Prod.snd ∘ fun k => (k, vs.count k)) k)).sum_eq
  rw [this]
  simpa using List.sum_map_count_dedup_eq_length vs

theorem groupbySize_pairwise_keys (df : DF) (c : String) :
    (groupbySize df c).Pairwise
      (fun a b => Val.le a.1 b.1 = true ∧ a.1 ≠ b.1) := by
  unfold groupbySize
  set vs := (colVals df c).filter (fun v => decide (v ≠ Val.null)) with hvs
  have h1 : (sortBy Val.le vs.dedup).Pairwise (Val.le · · = true) :=
    sortBy_pairwise Val.le (fun _ _ _ => val_le_trans) val_le_total _
  have h2 : (sortBy Val.le vs.dedup).Nodup :=
    (sortBy_perm Val.le vs.dedup).nodup_iff.mpr (List.nodup_dedup vs)
  have h3 := List.Pairwise.and h1 h2
  rw [List.pairwise_map]
  exact h3.imp (fun h => h)

theorem firstMax_eq_none : ∀ l : List (Val × Nat), firstMax l = none → l = [] := by
  intro l h
  cases l with
  | nil => rfl
  | cons a l =>
    exfalso
    cases hfl : firstMax l with
    | none =>
      simp only [firstMax, hfl] at h
      exact Option.noConfusion h
    | some q =>
      simp only [firstMax, hfl] at h
      split at h <;> exact Option.noConfusion h

theorem firstMax_spec :
    ∀ (l : List (Val × Nat)) (p : Val × Nat), firstMax l = some p →
      p ∈ l ∧ (∀ q ∈ l, q.2 ≤ p.2) ∧
        l.find? (fun q => q.2 == p.2) = some p := by
  intro l
  induction l with
  | nil => intro p h; simp [firstMax] at h
  | cons a l ih =>
    intro p h
    cases hfl : firstMax l with
    | none =>
      have : l = [] := firstMax_eq_none l hfl
      subst this
      simp [firstMax] at h
      subst h
      refine ⟨List.mem_singleton_self a, ?_, ?_⟩
      · intro q hq; rw [List.mem_singleton.mp hq]
      · simp [List.find?_cons]
    | some q =>
      obtain ⟨hqmem, hqmax, hqfind⟩ := ih q hfl
      simp only [firstMax, hfl] at h
      by_cases hlt : a.2 < q.2
      · rw [if_pos hlt] at h
        injection h with h; subst h
        refine ⟨List.mem_cons_of_mem a hqmem, ?_, ?_⟩
        · intro x hx
          rcases List.mem_cons.mp hx with rfl | hx
          · exact le_of_lt hlt
          · exact hqmax x hx
        · rw [List.find?_cons]
          have : (a.2 == q.2) = false := by
            simp only [beq_eq_false_iff_ne]; omega
          rw [this]
          exact hqfind
      · rw [if_neg hlt] at h
        injection h with h; subst h
        refine ⟨List.mem_cons_self a l, ?_, ?_⟩
        · intro x hx
          rcases List.mem_cons.mp hx with rfl | hx
          · exact le_refl _
          · exact le_trans (hqmax x hx) (not_lt.mp hlt)
        · rw [List.find?_cons]
          simp

/-! ## Primary-path failure characterization -/

theorem traverseE_error_iff (f : α → Except Unit β) :
    ∀ l : List α, traverseE f l = .error () ↔ ∃ x ∈ l, f x = .error () := by
  intro l
  induction l with
  | nil =>
    simp only [traverseE]
    constructor
    · intro h; exact Except.noConfusion h
    · rintro ⟨x, hx, _⟩; exact absurd hx (List.not_mem_nil x)
  | cons x xs ih =>
    cases hfx : f x with
    | error e =>
      cases e
      simp only [traverseE, hfx]
      exact ⟨fun _ => ⟨x, List.mem_cons_self x xs, hfx⟩, fun _ => trivial⟩
    | ok y =>
      cases hxs : traverseE f xs with
      | error e =>
        cases e
        simp only [traverseE, hfx, hxs]
        refine ⟨fun _ => ?_, fun _ => trivial⟩
        obtain ⟨z, hz, hfz⟩ := ih.mp hxs
        exact ⟨z, List.mem_cons_of_mem x hz, hfz⟩
      | ok ys =>
        simp only [traverseE, hfx, hxs]
        constructor
        · intro h; exact Except.noConfusion h
        · rintro ⟨z, hz, hfz⟩
          exfalso
          rcases List.mem_cons.mp hz with h_eq | hz
          · rw [h_eq, hfx] at hfz; exact Except.noConfusion hfz
          · have := ih.mpr ⟨z, hz, hfz⟩
            rw [hxs] at this; exact Except.noConfusion this

theorem primaryLoad_error_iff (env : Env) :
    primaryLoad env = .error () ↔ primaryFails env := by
  obtain ⟨oe, om, ce, cm⟩ := env
  unfold primaryLoad primaryFails
  cases oe with
  | none => exact ⟨fun _ => Or.inl rfl, fun _ => rfl⟩
  | some ej =>
    dsimp only
    cases hte : traverseE parseEstado ej with
    | error e =>
      cases e
      refine ⟨fun _ => Or.inr (Or.inl ⟨ej, rfl, (traverseE_error_iff _ ej).mp hte⟩),
        fun _ => rfl⟩
    | ok erows =>
      dsimp only
      cases om with
      | none => exact ⟨fun _ => Or.inr (Or.inr (Or.inl rfl)), fun _ => rfl⟩
      | some mj =>
        dsimp only
        cases htm : traverseE parseMunicipio mj with
        | error e =>
          cases e
          refine ⟨fun _ =>
            Or.inr (Or.inr (Or.inr ⟨mj, rfl, (traverseE_error_iff _ mj).mp htm⟩)),
            fun _ => rfl⟩
        | ok mrows =>
          constructor
          · intro h; exact Except.noConfusion h
          · rintro (h | ⟨js, hjs, j, hj, hfj⟩ | h | ⟨js, hjs, j, hj, hfj⟩)
            · exact Option.noConfusion h
            · injection hjs with hjs; subst hjs
              have := (traverseE_error_iff parseEstado ej).mpr ⟨j, hj, hfj⟩
              rw [hte] at this; exact Except.noConfusion this
            · exact Option.noConfusion h
            · injection hjs with hjs; subst hjs
              have := (traverseE_error_iff parseMunicipio mj).mpr ⟨j, hj, hfj⟩
              rw [htm] at this; exact Except.noConfusion this

theorem primaryLoad_ok_label (env : Env) (r : DF × DF × String)
    (h : primaryLoad env = .ok r) : r.2.2 = "API IBGE" := by
  obtain ⟨oe, om, ce, cm⟩ := env
  unfold primaryLoad at h
  cases oe with
  | none => exact Except.noConfusion h
  | some ej =>
    dsimp only at h
    cases hte : traverseE parseEstado ej with
    | error e => rw [hte] at h; exact Except.noConfusion h
    | ok erows =>
      rw [hte] at h
      cases om with
      | none => exact Except.noConfusion h
      | some mj =>
        dsimp only at h
        cases htm : traverseE parseMunicipio mj with
        | error e => rw [htm] at h; exact Except.noConfusion h
        | ok mrows =>
          rw [htm] at h
          injection h with h
          rw [← h]

/-! ## Claim theorems -/

/-- Claim C1: if any exception is raised while fetching or decoding the
primary API data (transport error, timeout, non-2xx status, JSON decode
failure — all modelled by a `none` response — or a record on which the row
construction raises), `carregar_dados` returns exactly the CSV-fallback
result, labelled "CSV GitHub (fallback)"; if the primary path succeeds end
to end, the label is "API IBGE". -/
theorem carregar_dados_fonte (env : Env) :
    (primaryFails env →
      carregar_dados env = csvFallback env ∧
        (carregar_dados env).2.2 = "CSV GitHub (fallback)") ∧
    (¬ primaryFails env → (carregar_dados env).2.2 = "API IBGE") := by
  constructor
  · intro h
    have herr : primaryLoad env = .error () := (primaryLoad_error_iff env).mpr h
    unfold carregar_dados
    rw [herr]
    exact ⟨rfl, rfl⟩
  · intro h
    have herr : primaryLoad env ≠ .error () :=
      fun hc => h ((primaryLoad_error_iff env).mp hc)
    unfold carregar_dados
    cases hp : primaryLoad env with
    | error e => cases e; exact absurd hp herr
    | ok r => exact primaryLoad_ok_label env r hp

/-! ## Concrete fixtures (spec section 8 scenario and variants) -/

/-- The states record of the spec scenario (section 8). -/
def jEstadoEx : Json :=
  .obj [("id", .int 11), ("sigla", .str "RO"), ("nome", .str "Rondonia"),
    ("regiao", .obj [("nome", .str "Norte")])]

/-- The municipalities record of the spec scenario (section 8). -/
def jMunicipioEx : Json :=
  .obj [("id", .int 1100015), ("nome", .str "Alta Floresta"),
    ("microrregiao", .obj [("mesorregiao", .obj [("UF", .obj
      [("id", .int 11), ("sigla", .str "RO"), ("nome", .str "Rondonia"),
       ("regiao", .obj [("nome", .str "Norte")])])])])]

/-- A CSV states table: one state, code 11. -/
def csvEstadosEx : DF :=
  ⟨["codigo_uf", "uf", "nome", "regiao"],
   [[.int 11, .str "RO", .str "Rondonia", .str "Norte"]]⟩

/-- A CSV municipalities table: one row matching state 11 and one row whose
state code 99 matches no state. -/
def csvMunicipiosEx : DF :=
  ⟨["codigo_ibge", "nome", "codigo_uf"],
   [[.int 1100015, .str "Alta Floresta", .int 11],
    [.int 9999999, .str "Perdido", .int 99]]⟩

/-- Environment in which the whole primary path succeeds. -/
def envOkEx : Env := ⟨some [jEstadoEx], some [jMunicipioEx], csvEstadosEx, csvMunicipiosEx⟩

/-- Environment in which the states fetch raises (e.g. a timeout). -/
def envFailEx : Env := ⟨none, some [jMunicipioEx], csvEstadosEx, csvMunicipiosEx⟩

/-- A municipalities table with two regions tied at one municipality each. -/
def dfRegTieEx : DF := ⟨["regiao"], [[.str "Sul"], [.str "Norte"]]⟩

/-- A municipalities table with two distinct states and one null `uf`. -/
def dfUfEx : DF := ⟨["uf"], [[.str "RO"], [.str "SP"], [.null]]⟩

/-- Witness for `carregar_dados_fonte`: a failed states fetch forces the
CSV fallback, and a fully successful primary path yields the API label. -/
theorem carregar_dados_fonte_witness :
    carregar_dados envFailEx = csvFallback envFailEx ∧
      (carregar_dados envOkEx).2.2 = "API IBGE" := by
  constructor
  · exact ((carregar_dados_fonte envFailEx).1 (Or.inl rfl)).1
  · refine (carregar_dados_fonte envOkEx).2 ?_
    rintro (h | ⟨js, hjs, j, hj, hfj⟩ | h | ⟨js, hjs, j, hj, hfj⟩)
    · exact Option.noConfusion h
    · injection hjs with hjs; subst hjs
      rw [List.mem_singleton] at hj
      subst hj
      have hok : parseEstado jEstadoEx =
          Except.ok [Val.int 11, Val.str "RO", Val.str "Rondonia", Val.str "Norte"] := rfl
      rw [hok] at hfj
      exact Except.noConfusion hfj
    · exact Option.noConfusion h
    · injection hjs with hjs; subst hjs
      rw [List.mem_singleton] at hj
      subst hj
      have hok : parseMunicipio jMunicipioEx =
          Except.ok [Val.int 1100015, Val.str "Alta Floresta", Val.int 11,
            Val.str "RO", Val.str "Rondonia", Val.str "Norte"] := rfl
      rw [hok] at hfj
      exact Except.noConfusion hfj

/-- Claim C5: for every non-empty region-aggregate table, the reported
region is one with the maximal count, and among the counts it is the first
entry of the table attaining that maximum. -/
theorem regiao_mais_municipios_spec (df : DF) (h : mun_por_regiao df ≠ []) :
    ∃ p : Val × Nat,
      regiao_mais_municipios df = some p.1 ∧ p ∈ mun_por_regiao df ∧
        (∀ q ∈ mun_por_regiao df, q.2 ≤ p.2) ∧
        (mun_por_regiao df).find? (fun q => q.2 == p.2) = some p := by
  cases hfm : firstMax (mun_por_regiao df) with
  | none => exact absurd (firstMax_eq_none _ hfm) h
  | some p =>
    obtain ⟨h1, h2, h3⟩ := firstMax_spec _ p hfm
    refine ⟨p, ?_, h1, h2, h3⟩
    unfold regiao_mais_municipios
    rw [hfm]
    rfl

/-- Witness for `regiao_mais_municipios_spec`: on a two-way tie the first
aggregate row at the maximum is returned. -/
theorem regiao_mais_municipios_spec_witness :
    mun_por_regiao dfRegTieEx ≠ [] ∧
      ∃ p : Val × Nat,
        regiao_mais_municipios dfRegTieEx = some p.1 ∧ p ∈ mun_por_regiao dfRegTieEx ∧
          (∀ q ∈ mun_por_regiao dfRegTieEx, q.2 ≤ p.2) ∧
          (mun_por_regiao dfRegTieEx).find? (fun q => q.2 == p.2) = some p :=
  ⟨by decide, regiao_mais_municipios_spec dfRegTieEx (by decide)⟩

/-- Claim C2 (amended): for every municipalities table all of whose rows
carry a non-null `regiao` — in particular every table the API path can
produce — the per-region counts sum to the number of rows.  (As stated over
every loaded table the claim fails: the CSV fallback can produce rows with
null `regiao`, which the grouping drops; see the counterexample.) -/
theorem mun_por_regiao_sum (df : DF)
    (h : ∀ r ∈ df.rows, getVal df.cols r "regiao" ≠ Val.null) :
    ((mun_por_regiao df).map Prod.snd).sum = total_municipios df := by
  unfold mun_por_regiao total_municipios
  rw [groupbySize_sum]
  have heq : (colVals df "regiao").filter (fun v => decide (v ≠ Val.null)) =
      colVals df "regiao" := by
    rw [List.filter_eq_self]
    intro v hv
    obtain ⟨r, hr, hrv⟩ := List.mem_map.mp hv
    rw [← hrv]
    simpa using h r hr
  rw [heq]
  simp [colVals]

/-- Counterexample to claim C2 as stated: a load that falls back to the CSV
source, with one municipality whose state code matches no state, produces a
table whose region counts sum to 1 while the table has 2 rows. -/
theorem mun_por_regiao_sum_cex :
    (carregar_dados envFailEx).2.2 = "CSV GitHub (fallback)" ∧
      ((mun_por_regiao (carregar_dados envFailEx).2.1).map Prod.snd).sum = 1 ∧
      total_municipios (carregar_dados envFailEx).2.1 = 2 := by decide

/-- Witness for `mun_por_regiao_sum` on a concrete all-non-null table. -/
theorem mun_por_regiao_sum_witness :
    (∀ r ∈ dfRegTieEx.rows, getVal dfRegTieEx.cols r "regiao" ≠ Val.null) ∧
      ((mun_por_regiao dfRegTieEx).map Prod.snd).sum = total_municipios dfRegTieEx :=
  ⟨by decide, mun_por_regiao_sum dfRegTieEx (by decide)⟩

/-- Claim C9: a row with null `regiao` (as the CSV left join produces for a
municipality with an unmatched state code) is excluded from the region
grouping — appending such a row changes neither the region aggregate nor
the reported top region, while it does increase the total-municipalities
metric. -/
theorem null_regiao_excluded (df : DF) (r : List Val)
    (h : getVal df.cols r "regiao" = Val.null) :
    mun_por_regiao (appendRow df r) = mun_por_regiao df ∧
      regiao_mais_municipios (appendRow df r) = regiao_mais_municipios df ∧
      total_municipios (appendRow df r) = total_municipios df + 1 := by
  have hcv : colVals (appendRow df r) "regiao" = colVals df "regiao" ++ [Val.null] := by
    simp [colVals, appendRow, h]
  have hg : mun_por_regiao (appendRow df r) = mun_por_regiao df := by
    simp only [mun_por_regiao, groupbySize]
    rw [hcv, List.filter_append]
    simp
  refine ⟨hg, ?_, ?_⟩
  · unfold regiao_mais_municipios
    rw [hg]
  · simp [total_municipios, appendRow]

/-- Witness for `null_regiao_excluded` on a concrete table. -/
theorem null_regiao_excluded_witness :
    getVal dfRegTieEx.cols [Val.null] "regiao" = Val.null ∧
      (mun_por_regiao (appendRow dfRegTieEx [Val.null]) = mun_por_regiao dfRegTieEx ∧
        regiao_mais_municipios (appendRow dfRegTieEx [Val.null]) =
          regiao_mais_municipios dfRegTieEx ∧
        total_municipios (appendRow dfRegTieEx [Val.null]) =
          total_municipios dfRegTieEx + 1) :=
  ⟨by decide, null_regiao_excluded dfRegTieEx [Val.null] (by decide)⟩

/-- Claim C10: the "Total de Estados" metric is the number of distinct
non-null `uf` values of the municipalities table (by definition it reads no
other table), and a row with null `uf` does not change it. -/
theorem total_estados_spec (df : DF) (r : List Val)
    (h : getVal df.cols r "uf" = Val.null) :
    total_estados df =
        ((colVals df "uf").filter (fun v => decide (v ≠ Val.null))).toFinset.card ∧
      total_estados (appendRow df r) = total_estados df := by
  constructor
  · rw [List.card_toFinset]; rfl
  · unfold total_estados
    have hcv : colVals (appendRow df r) "uf" = colVals df "uf" ++ [Val.null] := by
      simp [colVals, appendRow, h]
    rw [hcv, List.filter_append]
    simp

/-- Witness for `total_estados_spec`: three rows, two distinct states, one
null `uf`; the metric is 2 and ignores the null row. -/
theorem total_estados_spec_witness :
    getVal dfUfEx.cols [Val.null] "uf" = Val.null ∧
      (total_estados dfUfEx =
          ((colVals dfUfEx "uf").filter (fun v => decide (v ≠ Val.null))).toFinset.card ∧
        total_estados (appendRow dfUfEx [Val.null]) = total_estados dfUfEx) :=
  ⟨by decide, total_estados_spec dfUfEx [Val.null] (by decide)⟩

/-- A municipalities record lacking the nested `microrregiao` structure. -/
def jMunicipioBad : Json := .obj [("id", .int 1), ("nome", .str "SemUF")]

/-- Environment in which the states response is fine but one municipality
record is missing the nested key structure. -/
def envBadMunEx : Env :=
  ⟨some [jEstadoEx], some [jMunicipioEx, jMunicipioBad], csvEstadosEx, csvMunicipiosEx⟩

/-- Claim C7: if any record of either API response makes the row
construction raise (e.g. a municipality lacking the nested
microrregiao/mesorregiao/UF/regiao structure), the whole load attempt
fails and `carregar_dados` returns the CSV-fallback result — never a
partial API result. -/
theorem api_no_partial_result (env : Env)
    (h : (∃ js, env.apiEstados = some js ∧ ∃ j ∈ js, parseEstado j = .error ()) ∨
      (∃ js, env.apiMunicipios = some js ∧ ∃ j ∈ js, parseMunicipio j = .error ())) :
    carregar_dados env = csvFallback env ∧
      (carregar_dados env).2.2 = "CSV GitHub (fallback)" := by
  have hfail : primaryFails env := by
    rcases h with h | h
    · exact Or.inr (Or.inl h)
    · exact Or.inr (Or.inr (Or.inr h))
  have herr : primaryLoad env = .error () := (primaryLoad_error_iff env).mpr hfail
  unfold carregar_dados
  rw [herr]
  exact ⟨rfl, rfl⟩

/-- Witness for `api_no_partial_result`: one good and one malformed
municipality record force the CSV fallback. -/
theorem api_no_partial_result_witness :
    carregar_dados envBadMunEx = csvFallback envBadMunEx ∧
      (carregar_dados envBadMunEx).2.2 = "CSV GitHub (fallback)" :=
  api_no_partial_result envBadMunEx
    (Or.inr ⟨[jMunicipioEx, jMunicipioBad], rfl, jMunicipioBad,
      List.mem_cons_of_mem _ (List.mem_singleton_self _), rfl⟩)

/-! ## Stable descending sort: order and tie-break -/

/-- Invariant of the descending sort of a group table whose keys strictly
ascend: later entries have strictly smaller counts, or equal counts and a
strictly larger key. -/
def descTie (x y : Val × Nat) : Prop :=
  y.2 < x.2 ∨ (x.2 = y.2 ∧ Val.le x.1 y.1 = true ∧ x.1 ≠ y.1)

theorem pairwise_insertBy_descTie (a : Val × Nat) (l : List (Val × Nat))
    (hl : l.Pairwise descTie)
    (ha : ∀ b ∈ l, a.2 = b.2 → Val.le a.1 b.1 = true ∧ a.1 ≠ b.1) :
    (insertBy countGe a l).Pairwise descTie := by
  induction l with
  | nil => simp [insertBy, List.pairwise_cons]
  | cons b l ih =>
    rw [List.pairwise_cons] at hl
    by_cases hc : countGe a b = true
    · simp only [insertBy, hc, if_true]
      rw [List.pairwise_cons]
      have hba : b.2 ≤ a.2 := by simpa [countGe] using hc
      constructor
      · intro x hx
        rcases List.mem_cons.mp hx with h_eq | hx
        · rw [h_eq]
          rcases lt_or_eq_of_le hba with hlt | heq2
          · exact Or.inl hlt
          · exact Or.inr ⟨heq2.symm, ha b (List.mem_cons_self b l) heq2.symm⟩
        · have hbx := hl.1 x hx
          rcases hbx with hlt | ⟨heq2, _⟩
          · exact Or.inl (lt_of_lt_of_le hlt hba)
          · rcases lt_or_eq_of_le hba with hlt2 | heq3
            · exact Or.inl (heq2 ▸ hlt2)
            · have hax2 : a.2 = x.2 := by omega
              exact Or.inr ⟨hax2, ha x (List.mem_cons_of_mem b hx) hax2⟩
      · rw [List.pairwise_cons]; exact ⟨hl.1, hl.2⟩
    · rw [Bool.not_eq_true] at hc
      simp only [insertBy, hc, Bool.false_eq_true, if_false]
      rw [List.pairwise_cons]
      have hab : a.2 < b.2 := by
        have := hc
        simp only [countGe, decide_eq_false_iff_not, not_le] at this
        exact this
      constructor
      · intro x hx
        rcases List.mem_cons.mp ((insertBy_perm countGe a l).mem_iff.mp hx) with h_eq | hx
        · rw [h_eq]; exact Or.inl hab
        · exact hl.1 x hx
      · exact ih hl.2 (fun b2 hb2 => ha b2 (List.mem_cons_of_mem b hb2))

theorem sortBy_pairwise_descTie (g : List (Val × Nat))
    (hg : g.Pairwise (fun x y => Val.le x.1 y.1 = true ∧ x.1 ≠ y.1)) :
    (sortBy countGe g).Pairwise descTie := by
  induction g with
  | nil => simp [sortBy]
  | cons a g ih =>
    rw [List.pairwise_cons] at hg
    show (insertBy countGe a (sortBy countGe g)).Pairwise descTie
    refine pairwise_insertBy_descTie a _ (ih hg.2) ?_
    intro b hb _
    exact hg.1 b ((sortBy_perm countGe g).mem_iff.mp hb)

theorem map_add_one_range' : ∀ (n s : Nat),
    (List.range' s n).map (· + 1) = List.range' (s + 1) n := by
  intro n
  induction n with
  | zero => intro s; rfl
  | succ n ih =>
    intro s
    rw [List.range'_succ, List.range'_succ, List.map_cons, ih]

theorem mpe_map_snd (df : DF) :
    (mun_por_estado df).map Prod.snd =
      (sortBy countGe (groupbySize df "uf")).take 10 := by
  unfold mun_por_estado
  rw [List.map_map]
  have : (Prod.snd ∘ fun p : Nat × (Val × Nat) => (p.1 + 1, p.2)) = Prod.snd := by
    funext p; rfl
  rw [this, List.enum_map_snd]

theorem mpe_ranks (df : DF) :
    (mun_por_estado df).map Prod.fst =
      List.range' 1 (mun_por_estado df).length := by
  unfold mun_por_estado
  rw [List.map_map]
  have h1 : (Prod.fst ∘ fun p : Nat × (Val × Nat) => (p.1 + 1, p.2)) =
      (fun p : Nat × (Val × Nat) => p.1 + 1) := by
    funext p; rfl
  rw [h1]
  have h2 : (fun p : Nat × (Val × Nat) => p.1 + 1) =
      ((fun i => i + 1) ∘ Prod.fst) := by
    funext p; rfl
  rw [h2, ← List.map_map, List.enum_map_fst, List.range_eq_range',
    map_add_one_range', List.length_map, List.enum_length]

/-- A municipalities table with two states tied at one municipality each. -/
def dfStateTieEx : DF := ⟨["uf"], [[.str "BA"], [.str "AC"]]⟩

/-- Claim C3: the per-state table is sorted by count descending, truncated
to the top 10, ranks are assigned 1..n by position after the sort, and on
equal counts the relative order is the state-abbreviation order of the
grouped table (its first-seen order, since `groupby` sorts the `uf` keys
ascending). -/
theorem mun_por_estado_top10 (df : DF) :
    (mun_por_estado df).map Prod.fst = List.range' 1 (mun_por_estado df).length ∧
    (mun_por_estado df).length = min 10 (groupbySize df "uf").length ∧
    (∀ p ∈ mun_por_estado df, p.2 ∈ groupbySize df "uf") ∧
    ((mun_por_estado df).map Prod.snd).Pairwise (fun a b => b.2 ≤ a.2) ∧
    (∀ q ∈ groupbySize df "uf", q ∉ (mun_por_estado df).map Prod.snd →
      ∀ p ∈ mun_por_estado df, q.2 ≤ p.2.2) ∧
    ((mun_por_estado df).map Prod.snd).Pairwise
      (fun a b => a.2 = b.2 → Val.le a.1 b.1 = true ∧ a.1 ≠ b.1) := by
  have hdesc : (sortBy countGe (groupbySize df "uf")).Pairwise descTie :=
    sortBy_pairwise_descTie _ (groupbySize_pairwise_keys df "uf")
  have htake : ((sortBy countGe (groupbySize df "uf")).take 10).Pairwise descTie :=
    List.Pairwise.sublist (List.take_sublist 10 _) hdesc
  have hlen : (mun_por_estado df).length =
      ((sortBy countGe (groupbySize df "uf")).take 10).length := by
    unfold mun_por_estado
    rw [List.length_map, List.enum_length]
  refine ⟨mpe_ranks df, ?_, ?_, ?_, ?_, ?_⟩
  · rw [hlen, List.length_take, (sortBy_perm countGe (groupbySize df "uf")).length_eq]
  · intro p hp
    have h2 : p.2 ∈ (mun_por_estado df).map Prod.snd := List.mem_map_of_mem Prod.snd hp
    rw [mpe_map_snd] at h2
    exact (sortBy_perm countGe _).mem_iff.mp (List.mem_of_mem_take h2)
  · rw [mpe_map_snd]
    refine htake.imp ?_
    intro a b h
    rcases h with h | ⟨h, _⟩
    · exact le_of_lt h
    · exact le_of_eq h.symm
  · intro q hq hqn p hp
    have hps : p.2 ∈ (sortBy countGe (groupbySize df "uf")).take 10 := by
      have := List.mem_map_of_mem Prod.snd hp
      rwa [mpe_map_snd] at this
    rw [mpe_map_snd] at hqn
    have hqs : q ∈ sortBy countGe (groupbySize df "uf") :=
      (sortBy_perm countGe _).mem_iff.mpr hq
    rw [← List.take_append_drop 10 (sortBy countGe (groupbySize df "uf"))] at hqs
    rcases List.mem_append.mp hqs with h | h
    · exact absurd h hqn
    · have hcross := List.pairwise_append.mp
        (by rwa [List.take_append_drop 10] : 
          (((sortBy countGe (groupbySize df "uf")).take 10) ++
            ((sortBy countGe (groupbySize df "uf")).drop 10)).Pairwise descTie)
      rcases hcross.2.2 p.2 hps q h with hlt | ⟨heq, _⟩
      · exact le_of_lt hlt
      · exact le_of_eq heq.symm
  · rw [mpe_map_snd]
    refine htake.imp ?_
    intro a b h htie
    rcases h with h | ⟨_, hk⟩
    · omega
    · exact hk

/-- Counterexample to claim C4 as stated: on a table whose two states both
have one municipality, the displayed ranks are 1 and 2 — equal counts do
not share a (dense) rank. -/
theorem mun_por_estado_rank_cex :
    (mun_por_estado dfStateTieEx).map Prod.fst = [1, 2] ∧
      (mun_por_estado dfStateTieEx).map (fun p => p.2.2) = [1, 1] ∧
      ¬ (∀ p ∈ mun_por_estado dfStateTieEx, ∀ q ∈ mun_por_estado dfStateTieEx,
          p.2.2 = q.2.2 → p.1 = q.1) := by decide

/-- Claim C4 (amended): the rank column is the 1-based position in the
table after the descending sort (an ordinal ranking `1, 2, ..., n`): ranks
are pairwise distinct, so states with equal counts still receive distinct
consecutive ranks, not a shared dense rank. -/
theorem mun_por_estado_rank_positional (df : DF) :
    (mun_por_estado df).map Prod.fst = List.range' 1 (mun_por_estado df).length ∧
      ((mun_por_estado df).map Prod.fst).Nodup := by
  refine ⟨mpe_ranks df, ?_⟩
  rw [mpe_ranks df]
  exact List.nodup_range' 1 _

/-! ## Rename and merge lemmas -/

theorem getVal_renameCols (d : List (String × String)) (df : DF) (r : List Val)
    (c : String) (hg : ∀ x, (renameFn d x == c) = (x == c)) :
    getVal (renameCols d df).cols r c = getVal df.cols r c := by
  unfold getVal renameCols
  dsimp only
  rw [List.findIdx?_map]
  have heq : ((fun c0 => c0 == c) ∘ renameFn d) = (fun c0 => c0 == c) := by
    funext x
    exact hg x
  rw [heq]

theorem renameFn_mun_id (x : String) (h : x ≠ "nome") :
    renameFn [("nome", "municipio")] x = x := by
  unfold renameFn
  have e1 : (("nome" : String) == x) = false :=
    beq_eq_false_iff_ne.mpr (fun hx => h hx.symm)
  simp [List.find?, e1]

theorem renameFn_mun_key (x : String) :
    (renameFn [("nome", "municipio")] x == "codigo_uf") = (x == "codigo_uf") := by
  by_cases h : x = "nome"
  · subst h; rfl
  · rw [renameFn_mun_id x h]

theorem renameFn_est_id (x : String) (h : x ≠ "nome") :
    renameFn [("nome", "estado"), ("codigo_uf", "codigo_uf")] x = x := by
  unfold renameFn
  have e1 : (("nome" : String) == x) = false :=
    beq_eq_false_iff_ne.mpr (fun hx => h hx.symm)
  by_cases h2 : x = "codigo_uf"
  · subst h2; rfl
  · have e2 : (("codigo_uf" : String) == x) = false :=
      beq_eq_false_iff_ne.mpr (fun hx => h2 hx.symm)
    simp [List.find?, e1, e2]

theorem renameFn_est_key (x : String) :
    (renameFn [("nome", "estado"), ("codigo_uf", "codigo_uf")] x == "codigo_uf") =
      (x == "codigo_uf") := by
  by_cases h : x = "nome"
  · subst h; rfl
  · rw [renameFn_est_id x h]

theorem mem_renameCols_mun (df : DF) (c : String) (hc1 : c ≠ "municipio")
    (hc2 : c ∉ df.cols) : c ∉ (renameCols [("nome", "municipio")] df).cols := by
  unfold renameCols
  dsimp only
  intro hmem
  obtain ⟨x, hx, hgx⟩ := List.mem_map.mp hmem
  by_cases h : x = "nome"
  · subst h
    exact hc1 (by simpa [renameFn] using hgx.symm)
  · rw [renameFn_mun_id x h] at hgx
    exact hc2 (hgx ▸ hx)

theorem mergeLeftOn_unmatched (l r0 : DF) (key : String) (lr : List Val)
    (hlr : lr ∈ l.rows)
    (hnomatch : ∀ rr ∈ r0.rows,
      (getVal r0.cols rr key == getVal l.cols lr key) = false) :
    (lr ++ (r0.cols.filter (fun c => !(c == key))).map (fun _ => Val.null)) ∈
      (mergeLeftOn l r0 key).rows := by
  unfold mergeLeftOn
  dsimp only
  apply List.mem_flatMap.mpr
  refine ⟨lr, hlr, ?_⟩
  have hfil : r0.rows.filter
      (fun rr => getVal r0.cols rr key == getVal l.cols lr key) = [] := by
    rw [List.filter_eq_nil_iff]
    intro rr hrr
    simp [hnomatch rr hrr]
  rw [hfil]
  exact List.mem_singleton.mpr rfl

theorem getVal_append_ext (cols : List String) (r : List Val) (c : String)
    (rhs : List String) (i : Nat) (ext : List Val)
    (hnone : List.findIdx? (fun c0 => c0 == c) cols = none)
    (hfind : List.findIdx? (fun c0 => c0 == c) rhs = some i)
    (hlen : r.length = cols.length) :
    getVal (cols ++ rhs) (r ++ ext) c = ext.getD i Val.null := by
  unfold getVal
  rw [List.findIdx?_append, hnone, hfind]
  simp only [Option.map_some', Option.none_or]
  rw [List.getD_eq_getElem?_getD, List.getElem?_append_right (by omega)]
  have harith : i + cols.length - r.length = i := by omega
  rw [harith, ← List.getD_eq_getElem?_getD]

/-- Claim C6: under the CSV fallback, a municipality row whose `codigo_uf`
matches no row of the states table still appears in the merged table, with
null `uf`, `estado` and `regiao` cells — it is not dropped.  (The column
hypotheses record the actual CSV layout: the municipalities file has no
`uf`/`estado`/`regiao` columns of its own.) -/
theorem csv_left_join_keeps_unmatched (env : Env) (r : List Val)
    (hr : r ∈ env.csvMunicipios.rows)
    (hlen : r.length = env.csvMunicipios.cols.length)
    (hnu : "uf" ∉ env.csvMunicipios.cols)
    (hne : "estado" ∉ env.csvMunicipios.cols)
    (hnr : "regiao" ∉ env.csvMunicipios.cols)
    (hmiss : ∀ er ∈ env.csvEstados.rows,
      getVal env.csvEstados.cols er "codigo_uf" ≠
        getVal env.csvMunicipios.cols r "codigo_uf") :
    (r ++ [Val.null, Val.null, Val.null]) ∈ (csvFallback env).2.1.rows ∧
      getVal (csvFallback env).2.1.cols (r ++ [Val.null, Val.null, Val.null]) "uf" =
        Val.null ∧
      getVal (csvFallback env).2.1.cols (r ++ [Val.null, Val.null, Val.null]) "estado" =
        Val.null ∧
      getVal (csvFallback env).2.1.cols (r ++ [Val.null, Val.null, Val.null]) "regiao" =
        Val.null := by
  have hnu2 : "uf" ∉ (renameCols [("nome", "municipio")] env.csvMunicipios).cols :=
    mem_renameCols_mun env.csvMunicipios "uf" (by decide) hnu
  have hne2 : "estado" ∉ (renameCols [("nome", "municipio")] env.csvMunicipios).cols :=
    mem_renameCols_mun env.csvMunicipios "estado" (by decide) hne
  have hnr2 : "regiao" ∉ (renameCols [("nome", "municipio")] env.csvMunicipios).cols :=
    mem_renameCols_mun env.csvMunicipios "regiao" (by decide) hnr
  have hcf : (csvFallback env).2.1 =
      mergeLeftOn (renameCols [("nome", "municipio")] env.csvMunicipios)
        (selectCols (renameCols [("nome", "estado"), ("codigo_uf", "codigo_uf")]
            env.csvEstados)
          ["codigo_uf", "uf", "estado", "regiao"]) "codigo_uf" := rfl
  have hselc : (selectCols (renameCols [("nome", "estado"), ("codigo_uf", "codigo_uf")]
      env.csvEstados) ["codigo_uf", "uf", "estado", "regiao"]).cols =
      ["codigo_uf", "uf", "estado", "regiao"] := rfl
  have hcols : (csvFallback env).2.1.cols =
      (renameCols [("nome", "municipio")] env.csvMunicipios).cols ++
        ["uf", "estado", "regiao"] := by
    rw [hcf]
    unfold mergeLeftOn
    dsimp only
    rw [hselc]
    have hu : ((renameCols [("nome", "municipio")] env.csvMunicipios).cols.contains
        "uf") = false := by simpa using hnu2
    have he : ((renameCols [("nome", "municipio")] env.csvMunicipios).cols.contains
        "estado") = false := by simpa using hne2
    have hg : ((renameCols [("nome", "municipio")] env.csvMunicipios).cols.contains
        "regiao") = false := by simpa using hnr2
    simp [hu, he, hg]
    exact ⟨hnu2, hne2, hnr2⟩
  have hlen2 : r.length =
      (renameCols [("nome", "municipio")] env.csvMunicipios).cols.length := by
    unfold renameCols
    dsimp only
    rw [List.length_map]
    exact hlen
  have hnone : ∀ c : String,
      c ∉ (renameCols [("nome", "municipio")] env.csvMunicipios).cols →
      List.findIdx? (fun c0 => c0 == c)
        (renameCols [("nome", "municipio")] env.csvMunicipios).cols = none := by
    intro c hc
    rw [List.findIdx?_eq_none_iff]
    intro x hx
    exact beq_eq_false_iff_ne.mpr (fun h => hc (h ▸ hx))
  have hnomatch : ∀ rr ∈ (selectCols
      (renameCols [("nome", "estado"), ("codigo_uf", "codigo_uf")] env.csvEstados)
      ["codigo_uf", "uf", "estado", "regiao"]).rows,
      (getVal (selectCols
          (renameCols [("nome", "estado"), ("codigo_uf", "codigo_uf")] env.csvEstados)
          ["codigo_uf", "uf", "estado", "regiao"]).cols rr "codigo_uf" ==
        getVal (renameCols [("nome", "municipio")] env.csvMunicipios).cols r
          "codigo_uf") = false := by
    intro rr hrr
    have hrr2 : rr ∈ (renameCols [("nome", "estado"), ("codigo_uf", "codigo_uf")]
        env.csvEstados).rows.map (fun r0 =>
          (["codigo_uf", "uf", "estado", "regiao"] : List String).map (fun c =>
            getVal (renameCols [("nome", "estado"), ("codigo_uf", "codigo_uf")]
              env.csvEstados).cols r0 c)) := hrr
    obtain ⟨er, her, hproj⟩ := List.mem_map.mp hrr2
    have her2 : er ∈ env.csvEstados.rows := her
    have hkey_rr : getVal (selectCols
        (renameCols [("nome", "estado"), ("codigo_uf", "codigo_uf")] env.csvEstados)
        ["codigo_uf", "uf", "estado", "regiao"]).cols rr "codigo_uf" =
        getVal (renameCols [("nome", "estado"), ("codigo_uf", "codigo_uf")]
          env.csvEstados).cols er "codigo_uf" := by
      rw [hselc, ← hproj]
      rfl
    have hkey_er := getVal_renameCols [("nome", "estado"), ("codigo_uf", "codigo_uf")]
      env.csvEstados er "codigo_uf" renameFn_est_key
    have hkey_r := getVal_renameCols [("nome", "municipio")]
      env.csvMunicipios r "codigo_uf" renameFn_mun_key
    apply beq_eq_false_iff_ne.mpr
    rw [hkey_rr, hkey_er, hkey_r]
    exact hmiss er her2
  refine ⟨?_, ?_, ?_, ?_⟩
  · rw [hcf]
    exact mergeLeftOn_unmatched
      (renameCols [("nome", "municipio")] env.csvMunicipios)
      (selectCols (renameCols [("nome", "estado"), ("codigo_uf", "codigo_uf")]
          env.csvEstados)
        ["codigo_uf", "uf", "estado", "regiao"]) "codigo_uf" r hr hnomatch
  · rw [hcols]
    exact getVal_append_ext _ r "uf" _ 0 _ (hnone "uf" hnu2) rfl hlen2
  · rw [hcols]
    exact getVal_append_ext _ r "estado" _ 1 _ (hnone "estado" hne2) rfl hlen2
  · rw [hcols]
    exact getVal_append_ext _ r "regiao" _ 2 _ (hnone "regiao" hnr2) rfl hlen2

/-- Witness for `csv_left_join_keeps_unmatched`: the `Perdido` row (state
code 99, matching no state) survives the merge with three null cells. -/
theorem csv_left_join_keeps_unmatched_witness :
    ([Val.int 9999999, Val.str "Perdido", Val.int 99] ++
        [Val.null, Val.null, Val.null]) ∈ (csvFallback envFailEx).2.1.rows ∧
      getVal (csvFallback envFailEx).2.1.cols
        ([Val.int 9999999, Val.str "Perdido", Val.int 99] ++
          [Val.null, Val.null, Val.null]) "uf" = Val.null ∧
      getVal (csvFallback envFailEx).2.1.cols
        ([Val.int 9999999, Val.str "Perdido", Val.int 99] ++
          [Val.null, Val.null, Val.null]) "estado" = Val.null ∧
      getVal (csvFallback envFailEx).2.1.cols
        ([Val.int 9999999, Val.str "Perdido", Val.int 99] ++
          [Val.null, Val.null, Val.null]) "regiao" = Val.null :=
  csv_left_join_keeps_unmatched envFailEx
    [Val.int 9999999, Val.str "Perdido", Val.int 99]
    (by decide) (by decide) (by decide) (by decide) (by decide) (by decide)

/-! ## CSV normalization on already-canonical tables (claim C8) -/

/-- An already-canonical states table. -/
def estCanEx : DF :=
  ⟨["codigo_uf", "uf", "estado", "regiao"],
   [[.int 11, .str "RO", .str "Rondonia", .str "Norte"]]⟩

/-- An already-canonical municipalities table. -/
def munCanEx : DF :=
  ⟨["codigo_ibge", "municipio", "codigo_uf", "uf", "estado", "regiao"],
   [[.int 1100015, .str "Alta Floresta", .int 11, .str "RO", .str "Rondonia",
     .str "Norte"]]⟩

/-- Counterexample to claim C8 as stated: applying the CSV-path
normalization to already-canonical tables is not a no-op — the left join
appends `_est`-suffixed copies of the state columns to the municipalities
table (the renames and the states table itself are unchanged). -/
theorem csv_normalize_not_idempotent :
    (csvNormalize estCanEx munCanEx).2 ≠ munCanEx ∧
      (csvNormalize estCanEx munCanEx).2.cols =
        munCanEx.cols ++ ["uf_est", "estado_est", "regiao_est"] ∧
      (csvNormalize estCanEx munCanEx).1 = estCanEx := by decide

theorem filter_nodup_key (rows : List (List Val)) (f : List Val → Val)
    (h : (rows.map f).Nodup) (k : Val) :
    (rows.filter (fun rr => f rr == k)).length ≤ 1 := by
  induction rows with
  | nil => simp
  | cons r rs ih =>
    rw [List.map_cons, List.nodup_cons] at h
    by_cases hk : (f r == k) = true
    · rw [List.filter_cons, if_pos hk]
      have hnil : rs.filter (fun rr => f rr == k) = [] := by
        rw [List.filter_eq_nil_iff]
        intro rr hrr hbeq
        apply h.1
        have h1 : f rr = k := by simpa using hbeq
        have h2 : f r = k := by simpa using hk
        rw [h2, ← h1]
        exact List.mem_map_of_mem f hrr
      rw [hnil]
      simp
    · rw [List.filter_cons, if_neg hk]
      exact ih h.2

theorem map_getD_six (r : List Val) (h : r.length = 6) :
    [r.getD 0 Val.null, r.getD 1 Val.null, r.getD 2 Val.null, r.getD 3 Val.null,
      r.getD 4 Val.null, r.getD 5 Val.null] = r := by
  rcases r with _ | ⟨a, _ | ⟨b, _ | ⟨c, _ | ⟨d, _ | ⟨e2, _ | ⟨f2, _ | ⟨g2, r⟩⟩⟩⟩⟩⟩⟩ <;>
    first
      | rfl
      | simp at h

/-- The merged column list produced by joining canonical tables. -/
def mergedCanCols : List String :=
  ["codigo_ibge", "municipio", "codigo_uf", "uf", "estado", "regiao",
   "uf_est", "estado_est", "regiao_est"]

/-- Per-left-row output of the canonical-schema left merge (the reduced
form of the row function of `mergeLeftOn` in that configuration). -/
def mergeCanRow (erows2 : List (List Val)) (lr : List Val) : List (List Val) :=
  match erows2.filter (fun rr =>
      getVal ["codigo_uf", "uf", "estado", "regiao"] rr "codigo_uf" ==
        getVal ["codigo_ibge", "municipio", "codigo_uf", "uf", "estado", "regiao"]
          lr "codigo_uf") with
  | [] => [lr ++ [Val.null, Val.null, Val.null]]
  | ms => ms.map (fun rr =>
      lr ++ [getVal ["codigo_uf", "uf", "estado", "regiao"] rr "uf",
        getVal ["codigo_uf", "uf", "estado", "regiao"] rr "estado",
        getVal ["codigo_uf", "uf", "estado", "regiao"] rr "regiao"])

/-- Projection of a merged row back onto the six canonical municipality
columns. -/
def projCan (row : List Val) : List Val :=
  [row.getD 0 Val.null, row.getD 1 Val.null, row.getD 2 Val.null,
   row.getD 3 Val.null, row.getD 4 Val.null, row.getD 5 Val.null]

theorem projCan_append (r : List Val) (h6 : r.length = 6) (ext : List Val) :
    projCan (r ++ ext) = r := by
  unfold projCan
  rw [List.getD_append r ext Val.null 0 (by omega),
    List.getD_append r ext Val.null 1 (by omega),
    List.getD_append r ext Val.null 2 (by omega),
    List.getD_append r ext Val.null 3 (by omega),
    List.getD_append r ext Val.null 4 (by omega),
    List.getD_append r ext Val.null 5 (by omega)]
  exact map_getD_six r h6

theorem mergeCanRow_proj (erows2 : List (List Val))
    (hkeys2 : (erows2.map (fun rr =>
      getVal ["codigo_uf", "uf", "estado", "regiao"] rr "codigo_uf")).Nodup)
    (r : List Val) (h6 : r.length = 6) :
    (mergeCanRow erows2 r).map projCan = [r] := by
  unfold mergeCanRow
  cases hfil : erows2.filter (fun rr =>
      getVal ["codigo_uf", "uf", "estado", "regiao"] rr "codigo_uf" ==
        getVal ["codigo_ibge", "municipio", "codigo_uf", "uf", "estado", "regiao"]
          r "codigo_uf") with
  | nil =>
    show [projCan (r ++ [Val.null, Val.null, Val.null])] = [r]
    rw [projCan_append r h6]
  | cons rr ms =>
    have hle : (rr :: ms).length ≤ 1 := by
      rw [← hfil]
      exact filter_nodup_key erows2 _ hkeys2 _
    have hms : ms = [] := by
      rw [List.length_cons] at hle
      exact List.length_eq_zero.mp (by omega)
    subst hms
    show [projCan (r ++ [_, _, _])] = [r]
    rw [projCan_append r h6]

theorem mergeCan_rows_proj (erows2 : List (List Val))
    (hkeys2 : (erows2.map (fun rr =>
      getVal ["codigo_uf", "uf", "estado", "regiao"] rr "codigo_uf")).Nodup) :
    ∀ rows : List (List Val), (∀ r ∈ rows, r.length = 6) →
      ((rows.flatMap (mergeCanRow erows2)).map projCan) = rows := by
  intro rows
  induction rows with
  | nil => intro _; rfl
  | cons r rs ih =>
    intro h6
    rw [List.flatMap_cons, List.map_append,
      mergeCanRow_proj erows2 hkeys2 r (h6 r (List.mem_cons_self r rs)),
      ih (fun x hx => h6 x (List.mem_cons_of_mem r hx))]
    rfl

/-- Claim C8 (amended): on already-canonical tables (canonical column
lists, well-formed rows, unique state codes) the renames are no-ops — the
states table is returned unchanged — and the left join preserves the data
of the six canonical municipality columns; but normalization is not a
strict no-op, because the join appends `_est`-suffixed copies of the state
columns to the municipalities table. -/
theorem csv_normalize_canonical (e m : DF)
    (hcole : e.cols = ["codigo_uf", "uf", "estado", "regiao"])
    (hcolm : m.cols =
      ["codigo_ibge", "municipio", "codigo_uf", "uf", "estado", "regiao"])
    (hrows : ∀ r ∈ m.rows, r.length = 6)
    (hkeys : (e.rows.map (fun er => getVal e.cols er "codigo_uf")).Nodup) :
    (csvNormalize e m).1 = e ∧
      (csvNormalize e m).2.cols =
        m.cols ++ ["uf_est", "estado_est", "regiao_est"] ∧
      selectCols (csvNormalize e m).2 m.cols = m := by
  obtain ⟨ecols, erows⟩ := e
  obtain ⟨mcols, mrows⟩ := m
  dsimp only at hcole hcolm hrows hkeys
  subst hcole
  subst hcolm
  refine ⟨rfl, rfl, ?_⟩
  have hkeys2 : ((erows.map (fun r0 =>
      (["codigo_uf", "uf", "estado", "regiao"] : List String).map (fun c =>
        getVal ["codigo_uf", "uf", "estado", "regiao"] r0 c))).map
      (fun rr =>
        getVal ["codigo_uf", "uf", "estado", "regiao"] rr "codigo_uf")).Nodup := by
    rw [List.map_map]
    exact hkeys
  have hrows2 : (selectCols (csvNormalize
      ⟨["codigo_uf", "uf", "estado", "regiao"], erows⟩
      ⟨["codigo_ibge", "municipio", "codigo_uf", "uf", "estado", "regiao"], mrows⟩).2
      ["codigo_ibge", "municipio", "codigo_uf", "uf", "estado", "regiao"]).rows =
      mrows := by
    show ((mrows.flatMap (mergeCanRow (erows.map (fun r0 =>
        (["codigo_uf", "uf", "estado", "regiao"] : List String).map (fun c =>
          getVal ["codigo_uf", "uf", "estado", "regiao"] r0 c))))).map projCan) = mrows
    exact mergeCan_rows_proj _ hkeys2 mrows hrows
  have hsel : selectCols (csvNormalize
      ⟨["codigo_uf", "uf", "estado", "regiao"], erows⟩
      ⟨["codigo_ibge", "municipio", "codigo_uf", "uf", "estado", "regiao"], mrows⟩).2
      ["codigo_ibge", "municipio", "codigo_uf", "uf", "estado", "regiao"] =
      ⟨["codigo_ibge", "municipio", "codigo_uf", "uf", "estado", "regiao"],
        (selectCols (csvNormalize
          ⟨["codigo_uf", "uf", "estado", "regiao"], erows⟩
          ⟨["codigo_ibge", "municipio", "codigo_uf", "uf", "estado", "regiao"],
            mrows⟩).2
          ["codigo_ibge", "municipio", "codigo_uf", "uf", "estado", "regiao"]).rows⟩ :=
    rfl
  rw [hsel, hrows2]

/-- Witness for `csv_normalize_canonical` at the concrete canonical
tables. -/
theorem csv_normalize_canonical_witness :
    (csvNormalize estCanEx munCanEx).1 = estCanEx ∧
      (csvNormalize estCanEx munCanEx).2.cols =
        munCanEx.cols ++ ["uf_est", "estado_est", "regiao_est"] ∧
      selectCols (csvNormalize estCanEx munCanEx).2 munCanEx.cols = munCanEx :=
  csv_normalize_canonical estCanEx munCanEx (by decide) (by decide) (by decide)
    (by decide)
